import Mathlib

/-!
Verification of the inbound-message ingestion and conversation-state engine
of the HealthNurture repository (file src/app/api/whatsapp/route.ts), as a
shallow embedding in Lean.  Strings are modelled as lists of characters;
JavaScript machine numbers are modelled as unbounded integers (all values the
route manipulates - timestamps, ages, menu choices - are far below 2^53, where
JS number arithmetic is exact).  Each definition mirrors one function of the
source file and keeps its name where Lean allows it.
-/

/-- JavaScript strings, modelled as lists of Unicode scalar values. -/
abbrev Str := List Char

/-- Turn a Lean string literal into the model type. -/
def str (s : String) : Str := s.data

/-- The whitespace class used by the JS regexes and by String.prototype.trim
(space, tab, line feed, carriage return, vertical tab, form feed, NBSP).
The source only ever meets the ASCII members, but we keep the common set. -/
def isWs (c : Char) : Bool :=
  c = ' ' || c = '\t' || c = '\n' || c = '\r' ||
  c = Char.ofNat 11 || c = Char.ofNat 12 || c = Char.ofNat 160

/-- Model of String.prototype.trim: drop whitespace from both ends. -/
def trim (s : Str) : Str :=
  ((s.dropWhile isWs).reverse.dropWhile isWs).reverse

/-- Model of String.prototype.toLowerCase on the fragment the source
exercises: ASCII letters are lowered; Arabic letters and digits are caseless
and unchanged. -/
def jsToLower (s : Str) : Str := s.map Char.toLower

/-- Model of String.prototype.includes: substring containment. -/
def jsIncludes : Str → Str → Bool
  | [], needle => needle.isEmpty
  | hay@(_ :: t), needle => needle.isPrefixOf hay || jsIncludes t needle

/- =========================
   Number parsing (route.ts, toLatinDigits / parseChoice / parseAge)
========================= -/

/-- The character table of toLatinDigits: Arabic-Indic (U+0660..U+0669) and
Extended Arabic-Indic (U+06F0..U+06F9) digits map to Latin digits; every
other character is left alone (the regex class [٠-٩۰-۹] matches exactly the
mapped characters). -/
def latinOfDigit (c : Char) : Char :=
  if c = '٠' then '0' else if c = '١' then '1' else if c = '٢' then '2'
  else if c = '٣' then '3' else if c = '٤' then '4' else if c = '٥' then '5'
  else if c = '٦' then '6' else if c = '٧' then '7' else if c = '٨' then '8'
  else if c = '٩' then '9'
  else if c = '۰' then '0' else if c = '۱' then '1' else if c = '۲' then '2'
  else if c = '۳' then '3' else if c = '۴' then '4' else if c = '۵' then '5'
  else if c = '۶' then '6' else if c = '۷' then '7' else if c = '۸' then '8'
  else if c = '۹' then '9' else c

/-- route.ts toLatinDigits: replace each native-script digit by its Latin
equivalent, character by character. -/
def toLatinDigits (s : Str) : Str := s.map latinOfDigit

def isLatinDigit (c : Char) : Bool := '0' ≤ c && c ≤ '9'

/-- Numeric value of a list of Latin digits (most significant first). -/
def digitsVal (l : Str) : Nat :=
  l.foldl (fun acc c => 10 * acc + (c.toNat - '0'.toNat)) 0

/-- Model of JS parseInt(t, 10): skip leading whitespace, read an optional
sign, then a maximal run of decimal digits; NaN (none) when the run is empty.
Trailing non-digit characters are ignored, as in JS. -/
def jsParseInt (s : Str) : Option Int :=
  let l := s.dropWhile isWs
  match l with
  | '-' :: rest =>
      let d := rest.takeWhile isLatinDigit
      if d.isEmpty then none else some (-(digitsVal d : Int))
  | '+' :: rest =>
      let d := rest.takeWhile isLatinDigit
      if d.isEmpty then none else some (digitsVal d : Int)
  | rest =>
      let d := rest.takeWhile isLatinDigit
      if d.isEmpty then none else some (digitsVal d : Int)

/-- route.ts parseChoice: latinize and trim, strip every non-digit character,
then parse; null when nothing remains. -/
def parseChoice (input : Str) : Option Int :=
  let t := (toLatinDigits (trim input)).filter isLatinDigit
  if t.isEmpty then none else jsParseInt t

/- =========================
   Normalization (route.ts, normalizeGender / normalizeLocation / parseAge)
========================= -/

/-- A validated onboarding answer: machine value plus display label. -/
structure NormAnswer where
  value : Str
  label : Str
deriving DecidableEq, Repr

/-- route.ts normalizeGender. -/
def normalizeGender (input : Str) : Option NormAnswer :=
  let t := jsToLower (trim (toLatinDigits input))
  let n := parseChoice t
  if n = some 1 || t = str "female" || t = str "أنثى" || t = str "female/أنثى" then
    some ⟨str "female", str "Female/أنثى"⟩
  else if n = some 2 || t = str "male" || t = str "ذكر" || t = str "male/ذكر" then
    some ⟨str "male", str "Male/ذكر"⟩
  else none

/-- route.ts normalizeLocation, byNumber table. Entries exist for 1..5 only;
the JS guard (n && byNumber[n]) falls through to the text table otherwise. -/
def locationByNumber (n : Int) : Option NormAnswer :=
  if n = 1 then some ⟨str "bekkaa", str "Bekkaa/البقاع"⟩
  else if n = 2 then some ⟨str "tripoli", str "Tripoli/طرابلس"⟩
  else if n = 3 then some ⟨str "akkar", str "Akkar/عكار"⟩
  else if n = 4 then some ⟨str "baalbek", str "Baalbek/بعلبك"⟩
  else if n = 5 then some ⟨str "beirut", str "Beirut/بيروت"⟩
  else none

/-- route.ts normalizeLocation, byText table. -/
def locationByText (t : Str) : Option NormAnswer :=
  if t = str "bekkaa" || t = str "البقاع" then some ⟨str "bekkaa", str "Bekkaa/البقاع"⟩
  else if t = str "tripoli" || t = str "طرابلس" then some ⟨str "tripoli", str "Tripoli/طرابلس"⟩
  else if t = str "akkar" || t = str "عكار" then some ⟨str "akkar", str "Akkar/عكار"⟩
  else if t = str "baalbek" || t = str "بعلبك" then some ⟨str "baalbek", str "Baalbek/بعلبك"⟩
  else if t = str "beirut" || t = str "بيروت" then some ⟨str "beirut", str "Beirut/بيروت"⟩
  else none

/-- route.ts normalizeLocation. -/
def normalizeLocation (input : Str) : Option NormAnswer :=
  let t := jsToLower (trim (toLatinDigits input))
  match parseChoice t with
  | some n =>
      -- JS: if (n && byNumber[n]) return byNumber[n]; zero is falsy.
      if n ≠ 0 then
        match locationByNumber n with
        | some a => some a
        | none => locationByText t
      else locationByText t
  | none => locationByText t

/-- route.ts parseAge: latinize, trim, parseInt, then require 8 ≤ n ≤ 80. -/
def parseAge (input : Str) : Option Int :=
  let t := trim (toLatinDigits input)
  match jsParseInt t with
  | none => none
  | some n => if n < 8 || 80 < n then none else some n

/- =========================
   Reply post-processing (route.ts, containsArabic / userRequestedDetails /
   shortenToSentences / isClearlyOffTopic)
========================= -/

/-- route.ts containsArabic: does any character fall in U+0600..U+06FF. -/
def containsArabic (text : Str) : Bool :=
  text.any (fun c => 0x600 ≤ c.toNat && c.toNat ≤ 0x6FF)

/-- The fixed bilingual elaboration-keyword list of userRequestedDetails. -/
def detailKeywords : List Str :=
  [str "details", str "more detail", str "more details", str "explain more",
   str "in depth", str "in-depth", str "long answer", str "more info",
   str "elaborate", str "شرح بالتفصيل", str "تفاصيل اكثر", str "فسر اكثر"]

/-- route.ts userRequestedDetails: lowercase the text, then look for any
keyword as a substring. -/
def userRequestedDetails (text : Str) : Bool :=
  let lower := jsToLower text
  detailKeywords.any (fun k => jsIncludes lower k)

/-- Sentence-final punctuation of the split regex: period, exclamation mark,
Arabic question mark U+061F. -/
def isBreakPunct (c : Char) : Bool := c = '.' || c = '!' || c = '؟'

/-- Model of text.split(re) for re = whitespace-run preceded by break
punctuation: walk the string, and at each break character followed by
whitespace close the current part and skip the whitespace run.  The gap
Boolean, true right after a part was closed, consumes the whitespace run
one character at a time (keeping the recursion structural); the accumulator
holds the current part reversed. -/
def splitSentencesAux : Bool → Str → Str → List Str
  | _, acc, [] => [acc.reverse]
  | gap, acc, c :: rest =>
      if gap && isWs c then splitSentencesAux true acc rest
      else if isBreakPunct c && !rest.isEmpty && isWs (rest.headD ' ') then
        (c :: acc).reverse :: splitSentencesAux true [] rest
      else splitSentencesAux false (c :: acc) rest

def splitSentences (text : Str) : List Str := splitSentencesAux false [] text

/-- The parts pipeline of shortenToSentences: split, trim each part, drop
empty parts. -/
def sentenceParts (text : Str) : List Str :=
  ((splitSentences text).map trim).filter (fun p => !p.isEmpty)

/-- Model of parts.join(sep). -/
def joinWith (sep : Str) (parts : List Str) : Str := List.intercalate sep parts

/-- route.ts shortenToSentences. -/
def shortenToSentences (text : Str) (maxSentences : Nat) : Str :=
  let parts := sentenceParts text
  if parts.length ≤ maxSentences then text
  else joinWith (str " ") (parts.take maxSentences)

/-- The length policy applied to a generated reply (route.ts line 598):
truncate to four sentences unless the inbound text asked for detail. -/
def applyLengthPolicy (inbound reply : Str) : Str :=
  if userRequestedDetails inbound then reply else shortenToSentences reply 4

/-- The banned-topic substring list of isClearlyOffTopic. -/
def bannedTopics : List Str :=
  [str "cat", str "cats", str "dog", str "dogs", str "animal", str "animals",
   str "pet", str "pets",
   str "car", str "cars", str "engine", str "vehicle", str "motorcycle", str "bike",
   str "game", str "games", str "fortnite", str "minecraft", str "playstation",
   str "xbox", str "nintendo", str "movie", str "movies", str "series", str "anime",
   str "coding", str "programming", str "javascript", str "typescript", str "python",
   str "nextjs", str "react", str "computer", str "laptop", str "iphone", str "android",
   str "capital of", str "planet", str "galaxy", str "space", str "math",
   str "equation", str "physics", str "chemistry"]

/-- route.ts isClearlyOffTopic. -/
def isClearlyOffTopic (text : Str) : Bool :=
  let lower := jsToLower text
  bannedTopics.any (fun w => jsIncludes lower w)

/-- The markdown-stripping step reply.replace of asterisk and hash. -/
def stripMd (s : Str) : Str := s.filter (fun c => c ≠ '*' && c ≠ '#')

/-- route.ts escapeXml. The five chained replacements are equivalent to one
character-by-character expansion because no replacement output contains a
character replaced by a later pass. -/
def escapeXml (s : Str) : Str :=
  s.flatMap (fun c =>
    if c = '&' then str "&amp;" else if c = '<' then str "&lt;"
    else if c = '>' then str "&gt;" else if c = '"' then str "&quot;"
    else if c = Char.ofNat 39 then str "&apos;" else [c])

/- =========================
   Firestore document model (route.ts: StoredMessage, users collection)
========================= -/

inductive Provider | twilio | ultramsg | unknown
deriving DecidableEq, Repr

inductive MessageKind | chat | onboarding | system
deriving DecidableEq, Repr

inductive MsgRole | user | assistant
deriving DecidableEq, Repr

/-- route.ts StoredMessage. Timestamps (Date.now()) are modelled as integers. -/
structure StoredMessage where
  id : Str
  role : MsgRole
  text : Str
  ts : Int
  provider : Provider
  kind : MessageKind
deriving DecidableEq, Repr

/-- The profile object of a users document. Firestore server timestamps
(createdAt, updatedAt) carry no claim-relevant information and are omitted. -/
structure Profile where
  userId : Str
  onboardingStep : Str
  gender : Option Str := none
  genderLabel : Option Str := none
  location : Option Str := none
  locationLabel : Option Str := none
  age : Option Int := none
deriving DecidableEq, Repr

/-- One users/{userId} document: profile plus messages array. -/
structure UserDoc where
  profile : Profile
  messages : List StoredMessage
deriving DecidableEq, Repr

/-- The profile written by ensureUserDoc for a fresh user. -/
def freshProfile (userId : Str) : Profile :=
  { userId := userId, onboardingStep := str "gender" }

/-- route.ts ensureUserDoc: create the document with an empty transcript and
onboardingStep gender when absent; leave it alone otherwise. -/
def ensureUserDoc (doc : Option UserDoc) (userId : Str) : UserDoc :=
  match doc with
  | none => ⟨freshProfile userId, []⟩
  | some d => d

/-- messages[idx] = merge of the old entry with the incoming message, at the
first index whose id matches (Array.prototype.findIndex).  Because the
incoming StoredMessage carries every field, the merged object equals the
incoming message. -/
def replaceById (msgs : List StoredMessage) (m : StoredMessage) : List StoredMessage :=
  match msgs with
  | [] => []
  | x :: xs => if x.id = m.id then m :: xs else x :: replaceById xs m

/-- The sort comparator (a, b) => (a.ts || 0) - (b.ts || 0), as the Boolean
ordering a.ts ≤ b.ts used by a stable sort (JS Array.prototype.sort is
stable, as is List.mergeSort). -/
def leTs (a b : StoredMessage) : Bool := a.ts ≤ b.ts

/-- The cap constant of upsertMessageArray. -/
def MSG_CAP : Nat := 500

/-- The sort-and-cap tail of the transaction: stable-sort by ts, then keep
the most recent MSG_CAP entries (Array.prototype.slice(-500)). -/
def capSorted (merged : List StoredMessage) : List StoredMessage :=
  if MSG_CAP < (merged.mergeSort leTs).length then
    (merged.mergeSort leTs).drop ((merged.mergeSort leTs).length - MSG_CAP)
  else merged.mergeSort leTs

/-- The transaction body of upsertMessageArray on an existing document:
replace-by-id when the id is present (Array.prototype.findIndex), append
otherwise, then sort and cap. -/
def upsertBody (messages : List StoredMessage) (m : StoredMessage) : List StoredMessage :=
  capSorted
    (if messages.any (fun x => x.id = m.id) then replaceById messages m
     else messages ++ [m])

/-- route.ts upsertMessageArray: when the document does not exist the
transaction creates it with the single message and a gender-step profile;
otherwise it runs the replace/append/sort/cap body, leaving the profile
untouched. -/
def upsertMessageArray (doc : Option UserDoc) (userId : Str) (m : StoredMessage) : UserDoc :=
  match doc with
  | none => ⟨freshProfile userId, [m]⟩
  | some d => ⟨d.profile, upsertBody d.messages m⟩

/- =========================
   LLM history window (route.ts buildHistoryForLLM)
========================= -/

inductive ChatRole | system | user | assistant
deriving DecidableEq, Repr

structure ChatMessage where
  role : ChatRole
  content : Str
deriving DecidableEq, Repr

def MsgRole.toChatRole : MsgRole → ChatRole
  | .user => .user
  | .assistant => .assistant

/-- route.ts HISTORY_LIMIT. -/
def HISTORY_LIMIT : Nat := 24

/-- The stored messages selected by buildHistoryForLLM: keep kind chat with
non-blank text, stable-sort by ts, take the last HISTORY_LIMIT
(Array.prototype.slice(-24)). -/
def chatWindow (allMessages : List StoredMessage) : List StoredMessage :=
  let filtered := allMessages.filter
    (fun m => m.kind = MessageKind.chat && !(trim m.text).isEmpty)
  let sorted := filtered.mergeSort leTs
  sorted.drop (sorted.length - HISTORY_LIMIT)

/-- route.ts buildHistoryForLLM. -/
def buildHistoryForLLM (allMessages : List StoredMessage) : List ChatMessage :=
  (chatWindow allMessages).map (fun m => ⟨m.role.toChatRole, m.text⟩)

/- =========================
   Fixed texts (route.ts: SYSTEM_PROMPT, Q1..Q3, WELCOME, canned replies)
========================= -/

def SYSTEM_PROMPT : Str := str
  "\nYou are a friendly health information assistant for young people.\n\nMain focus:\n- Sexual and reproductive health.\n- Male and female puberty and body changes.\n- Emotions, relationships, and mental well-being.\n- You may answer small general medical questions briefly.\n\nBehavior:\n- If the user asks about something outside this area (for example cats, games, cars, coding, etc.), do NOT answer their question. Reply with one short sentence such as \"I\'m mainly here to help with puberty, sexual health, and emotions, so I can\'t answer that.\" Then stop.\n- Do not use markdown, lists, bullets, * or #.\n- Keep responses short to medium by default (two to ten sentences) unless the question needs details or it is specific.\n- Give a longer or more detailed answer only if the user clearly asks for more detail.\n- Don\'t answer questions related to LGBTQ+.\n- If it asked something like this is a test, tell them you are working fine.\n- Don\'t include religious answers, keep it real and use facts and science if the question contained something religious.\n- Use the same language the user uses. If the user writes in Arabic, answer only in Arabic. If the user writes in English, answer only in English. Do not mix languages unless the user mixes them.\n\nMedication rules:\n- Never give names of medications, pills, drugs, or antibiotics.\n- Never explain how to use any medication or give doses.\n- If the user asks about medication or treatment, say that only a doctor can decide medication and you cannot provide drug names.\n\nSafety:\n- Never explain how to perform suicide, self-harm, harm to others, or abortion.\n- Always stay supportive, kind, and non-judgmental, like a school counselor or health educator.\n"

def Q1 : Str := str
  "Question 1/3: What is your gender?\nالسؤال 1/3: ما هو جنسك؟\n\n1) Female / أنثى\n2) Male / ذكر\n\nReply with 1 or 2.\nأجب بالرقم 1 أو 2."

def Q2 : Str := str
  "Question 2/3: Where is your location?\nالسؤال 2/3: ما هو موقعك؟\n\n1) Bekkaa / البقاع\n2) Tripoli / طرابلس\n3) Akkar / عكار\n4) Baalbek / بعلبك\n5) Beirut / بيروت\n\nReply with a number from 1 to 5.\nأجب برقم من 1 إلى 5."

def Q3 : Str := str
  "Question 3/3: How old are you?\nالسؤال 3/3: كم عمرك؟\n\nReply with your age as a number (example: 18).\nأجب بعمرك كرقم (مثال: 18)."

def WELCOME : Str := str
  "Welcome to Health Nurture. You can ask me about puberty, sexual and reproductive health, emotions and relationships.\nأهلاً بك في هيلث نيرتشر، يمكنك سؤالي عن البلوغ، الصحة الجنسية، والمشاعر والعلاقات."

/-- The canned off-topic refusal of the done branch, by detected language. -/
def offTopicReply (isArabic : Bool) : Str :=
  if isArabic then
    str "أنا هنا لمساعدتك في أمور البلوغ والصحة الجنسية والمشاعر والعلاقات، لذلك لا يمكنني الإجابة على هذا السؤال."
  else
    str "I am here to help with puberty, sexual and reproductive health, emotions and relationships, so I cannot answer that question."

/-- The fallback reply when the model returns blank output. -/
def llmFallback (isArabic : Bool) : Str :=
  if isArabic then str "عذراً، حدث خطأ مؤقت." else str "Sorry, a temporary error occurred."

/-- The LANGUAGE_ENFORCER system message. -/
def languageEnforcer (isArabic : Bool) : ChatMessage :=
  ⟨ChatRole.system,
   if isArabic then
     str "Answer only in Arabic. Use simple, clear Modern Standard Arabic. Do not include English unless the user includes it."
   else
     str "Answer only in English. Use simple, clear sentences. Do not mix languages unless the user mixes them."⟩

/- =========================
   POST handler model (route.ts lines 457-632)

   The handler is embedded as a pure function over one user document (the
   only document a delivery touches), the parsed inbound message, the two
   Date.now() readings, and an oracle recording whether each external call
   (Firestore operations, the OpenAI completion, the UltraMsg send)
   succeeds and what text the model returns.  Every thrown exception lands
   in the outer try/catch, which answers 200 with a fixed TwiML body; the
   model mirrors this by returning the catch outcome with whatever partial
   state the run had produced.
========================= -/

/-- The canonical parse of the webhook body (parseIncoming's result).
ultraType is the raw payload field data.type of a JSON delivery. -/
structure PostInput where
  provider : Provider
  userId : Str
  toRaw : Str
  text : Str
  messageId : Str
  ultraType : Option Str
deriving DecidableEq, Repr

/-- Success/failure of each external call during one delivery, and the text
the completion endpoint returns when it succeeds. -/
structure Oracles where
  ensureFails : Bool := false
  upsertInFails : Bool := false
  readFails : Bool := false
  updateProfileFails : Bool := false
  llmFails : Bool := false
  llmText : Str := []
  upsertOutFails : Bool := false
  sendFails : Bool := false
deriving DecidableEq, Repr

/-- A successful UltraMsg send: destination and body. -/
structure Sent where
  dest : Str
  body : Str
deriving DecidableEq, Repr

inductive RespBody
  | jsonOk
  | twiml (xml : Str)
deriving DecidableEq, Repr

structure HttpResponse where
  status : Nat
  body : RespBody
deriving DecidableEq, Repr

/-- Everything observable about one delivery: the final document, the
successful sends, the message arrays passed to the completion endpoint, and
the HTTP response. -/
structure Outcome where
  doc : Option UserDoc
  sent : List Sent
  llmCalls : List (List ChatMessage)
  resp : HttpResponse
deriving DecidableEq, Repr

def jsonOkResp : HttpResponse := ⟨200, RespBody.jsonOk⟩

/-- The catch-all response of the outer try/catch (status 200, fixed TwiML). -/
def catchOutcome (doc : Option UserDoc) (sent : List Sent)
    (calls : List (List ChatMessage)) : Outcome :=
  ⟨doc, sent, calls,
   ⟨200, RespBody.twiml
     (str "<Response><Message>Temporary error. Please try again later.</Message></Response>")⟩⟩

/-- The TwiML reply envelope of the Twilio paths. -/
def twimlFor (reply : Str) : HttpResponse :=
  ⟨200, RespBody.twiml
    (str "<Response><Message>" ++ escapeXml reply ++ str "</Message></Response>")⟩

/-- The UltraMsg non-chat guard: provider === ultramsg, and raw.data.type is
truthy (present and non-empty) and differs from chat. -/
def ultraSkip (inp : PostInput) : Bool :=
  inp.provider = Provider.ultramsg &&
    (match inp.ultraType with
     | some t => !t.isEmpty && t ≠ str "chat"
     | none => false)

/-- Shared tail of both branches: answer per provider, sending over UltraMsg
when a destination is present. -/
def respondAndSend (inp : PostInput) (reply : Str) (doc : Option UserDoc)
    (calls : List (List ChatMessage)) (sendFails : Bool) : Outcome :=
  match inp.provider with
  | .twilio => ⟨doc, [], calls, twimlFor reply⟩
  | .ultramsg =>
      if inp.toRaw.isEmpty then ⟨doc, [], calls, jsonOkResp⟩
      else if sendFails then catchOutcome doc [] calls
      else ⟨doc, [⟨inp.toRaw, reply⟩], calls, jsonOkResp⟩
  | .unknown => ⟨doc, [], calls, jsonOkResp⟩

/-- Store the outbound onboarding prompt (kind onboarding) and respond. -/
def finishOnboarding (d : UserDoc) (inp : PostInput) (ts2 : Int) (o : Oracles)
    (reply : Str) : Outcome :=
  if o.upsertOutFails then catchOutcome (some d) [] []
  else
    let aMsg : StoredMessage :=
      ⟨str "assistant_" ++ inp.messageId, .assistant, reply, ts2, inp.provider, .onboarding⟩
    let d2 := upsertMessageArray (some d) inp.userId aMsg
    respondAndSend inp reply (some d2) [] o.sendFails

/-- The onboarding branch (step !== done) of the POST handler: decide the
state-machine move, apply the profile patch through updateProfile on valid
input, and emit the scripted prompt. -/
def onboardingBranch (d : UserDoc) (inp : PostInput) (ts2 : Int) (o : Oracles)
    (step : Str) : Outcome :=
  let decision : Option Profile × Str :=
    if step = str "gender" then
      match normalizeGender inp.text with
      | none => (none, Q1)
      | some g =>
          (some { d.profile with gender := some g.value, genderLabel := some g.label,
                                 onboardingStep := str "location" }, Q2)
    else if step = str "location" then
      match normalizeLocation inp.text with
      | none => (none, Q2)
      | some loc =>
          (some { d.profile with location := some loc.value, locationLabel := some loc.label,
                                 onboardingStep := str "age" }, Q3)
    else if step = str "age" then
      match parseAge inp.text with
      | none => (none, Q3)
      | some a =>
          (some { d.profile with age := some a, onboardingStep := str "done" }, WELCOME)
    else
      (some { d.profile with onboardingStep := str "gender" }, Q1)
  match decision with
  | (some p, reply) =>
      if o.updateProfileFails then catchOutcome (some d) [] []
      else finishOnboarding ⟨p, d.messages⟩ inp ts2 o reply
  | (none, reply) => finishOnboarding d inp ts2 o reply

/-- Store the outbound chat reply (kind chat) and respond. -/
def finishChat (d : UserDoc) (inp : PostInput) (ts2 : Int) (o : Oracles)
    (calls : List (List ChatMessage)) (reply : Str) : Outcome :=
  if o.upsertOutFails then catchOutcome (some d) [] calls
  else
    let aMsg : StoredMessage :=
      ⟨str "assistant_" ++ inp.messageId, .assistant, reply, ts2, inp.provider, .chat⟩
    let d2 := upsertMessageArray (some d) inp.userId aMsg
    respondAndSend inp reply (some d2) calls o.sendFails

/-- The normal-chat branch (step === done) of the POST handler. -/
def chatBranch (d : UserDoc) (inp : PostInput) (ts2 : Int) (o : Oracles)
    (allMessages : List StoredMessage) : Outcome :=
  let isAr := containsArabic inp.text
  if isClearlyOffTopic inp.text then
    finishChat d inp ts2 o [] (offTopicReply isAr)
  else
    let history := buildHistoryForLLM allMessages
    let callMsgs : List ChatMessage :=
      ⟨ChatRole.system, SYSTEM_PROMPT⟩ :: languageEnforcer isAr ::
        (history ++ [⟨ChatRole.user, inp.text⟩])
    if o.llmFails then catchOutcome (some d) [] [callMsgs]
    else
      let r := trim o.llmText
      let reply0 := if r.isEmpty then llmFallback isAr else r
      let reply1 := stripMd reply0
      finishChat d inp ts2 o [callMsgs] (applyLengthPolicy inp.text reply1)

/-- route.ts POST, after body parsing: early acknowledgments, ensureUserDoc,
inbound upsert (kind chat, always), profile read, then the onboarding or
chat branch. -/
def POSTmodel (doc0 : Option UserDoc) (inp : PostInput) (ts1 ts2 : Int)
    (o : Oracles) : Outcome :=
  if inp.userId.isEmpty then ⟨doc0, [], [], jsonOkResp⟩
  else if ultraSkip inp then ⟨doc0, [], [], jsonOkResp⟩
  else if o.ensureFails then catchOutcome doc0 [] []
  else
    let doc1 := ensureUserDoc doc0 inp.userId
    if o.upsertInFails then catchOutcome (some doc1) [] []
    else
      let inMsg : StoredMessage :=
        ⟨inp.messageId, .user, inp.text, ts1, inp.provider, .chat⟩
      let doc2 := upsertMessageArray (some doc1) inp.userId inMsg
      if o.readFails then catchOutcome (some doc2) [] []
      else
        let step :=
          if doc2.profile.onboardingStep.isEmpty then str "gender"
          else doc2.profile.onboardingStep
        if step ≠ str "done" then onboardingBranch doc2 inp ts2 o step
        else chatBranch doc2 inp ts2 o doc2.messages

/-- route.ts POST including body parsing: none models an exception thrown
while reading the request body (malformed form data), which the outer
try/catch turns into the fixed 200 TwiML answer. -/
def POSTfull (parsed : Option PostInput) (doc0 : Option UserDoc) (ts1 ts2 : Int)
    (o : Oracles) : Outcome :=
  match parsed with
  | none => catchOutcome doc0 [] []
  | some inp => POSTmodel doc0 inp ts1 ts2 o

/- =========================
   Scenario constants used by concrete witnesses and counterexamples
========================= -/

/-- The all-success oracle: every external call works; the completion
endpoint returns blank text (so the fixed fallback reply is used). -/
def oraclesOk : Oracles := {}

/-- A canonical UltraMsg chat delivery for a fixed phone number. -/
def mkUltraInp (text mid : String) : PostInput :=
  ⟨Provider.ultramsg, str "96170123456", str "96170123456@c.us", str text, str mid,
   some (str "chat")⟩

/-- A fresh user document parked at the gender step. -/
def genderDoc : UserDoc :=
  ⟨⟨str "96170123456", str "gender", none, none, none, none, none⟩, []⟩

/-- A user document parked at the age step with an empty transcript. -/
def ageDoc : UserDoc :=
  ⟨⟨str "96170123456", str "age", none, none, none, none, none⟩, []⟩

/-- A user document that finished onboarding, with an empty transcript. -/
def doneDoc : UserDoc :=
  ⟨⟨str "96170123456", str "done", none, none, none, none, none⟩, []⟩

/-- The document produced by one successful age-step pass on ageDoc with
answer 20 (inbound stored as kind chat, the welcome prompt as kind
onboarding). -/
def ageDocAfter : UserDoc :=
  ⟨⟨str "96170123456", str "done", none, none, none, none, some 20⟩,
   [⟨str "m1", MsgRole.user, str "20", 1, Provider.ultramsg, MessageKind.chat⟩,
    ⟨str "assistant_m1", MsgRole.assistant, WELCOME, 2, Provider.ultramsg,
     MessageKind.onboarding⟩]⟩

/-- A single stored chat message, for window membership examples. -/
def oneChatMsg : StoredMessage :=
  ⟨str "m1", MsgRole.user, str "hi", 1, Provider.ultramsg, MessageKind.chat⟩

/- =========================
   Lemmas about the upsert transaction body
========================= -/

lemma leTs_trans (a b c : StoredMessage) (h1 : leTs a b = true) (h2 : leTs b c = true) :
    leTs a c = true := by
  simp only [leTs, decide_eq_true_eq] at *
  exact le_trans h1 h2

lemma leTs_total (a b : StoredMessage) : (leTs a b || leTs b a) = true := by
  simp only [leTs, Bool.or_eq_true, decide_eq_true_eq]
  exact Int.le_total a.ts b.ts

/-- A stable sort with comparator leTs yields a ts-sorted list. -/
lemma sorted_mergeSort_ts (l : List StoredMessage) :
    List.Sorted (fun a b => a.ts ≤ b.ts) (l.mergeSort leTs) := by
  have h := List.sorted_mergeSort leTs_trans leTs_total l
  exact h.imp (fun hab => by simpa [leTs, decide_eq_true_eq] using hab)

/-- The sort-and-cap stage yields a ts-sorted list. -/
lemma sorted_capSorted (l : List StoredMessage) :
    List.Sorted (fun a b => a.ts ≤ b.ts) (capSorted l) := by
  unfold capSorted
  split
  · exact List.Pairwise.sublist (List.drop_sublist _ _) (sorted_mergeSort_ts l)
  · exact sorted_mergeSort_ts l

/-- The sort-and-cap stage never returns more than MSG_CAP entries. -/
lemma length_capSorted_le_cap (l : List StoredMessage) :
    (capSorted l).length ≤ MSG_CAP := by
  unfold capSorted
  split
  · next h => simp only [List.length_drop]; omega
  · next h => omega

/-- The sort-and-cap stage never grows the list. -/
lemma length_capSorted_le (l : List StoredMessage) :
    (capSorted l).length ≤ l.length := by
  unfold capSorted
  split
  · next h =>
      simp only [List.length_drop, List.length_mergeSort]
      omega
  · next h => simp [List.length_mergeSort]

/-- Without overflow the sort-and-cap stage is just the stable sort. -/
lemma capSorted_of_le_cap (l : List StoredMessage) (h : l.length ≤ MSG_CAP) :
    capSorted l = l.mergeSort leTs := by
  unfold capSorted
  rw [if_neg]
  simp only [List.length_mergeSort]
  omega

/-- Every element of the capped result comes from the input list. -/
lemma mem_of_mem_capSorted {l : List StoredMessage} {x : StoredMessage}
    (h : x ∈ capSorted l) : x ∈ l := by
  unfold capSorted at h
  split at h
  · exact List.mem_mergeSort.mp (List.drop_subset _ _ h)
  · exact List.mem_mergeSort.mp h

/-- After any upsert the messages array is ts-sorted. -/
lemma sorted_upsertBody (l : List StoredMessage) (m : StoredMessage) :
    List.Sorted (fun a b => a.ts ≤ b.ts) (upsertBody l m) :=
  sorted_capSorted _

/-- After any upsert the messages array holds at most MSG_CAP entries. -/
lemma length_upsertBody_le_cap (l : List StoredMessage) (m : StoredMessage) :
    (upsertBody l m).length ≤ MSG_CAP :=
  length_capSorted_le_cap _

lemma length_replaceById (l : List StoredMessage) (m : StoredMessage) :
    (replaceById l m).length = l.length := by
  induction l with
  | nil => rfl
  | cons x xs ih =>
      simp only [replaceById]
      split <;> simp [ih]

/-- One upsert grows the array by at most one entry. -/
lemma length_upsertBody_le_succ (l : List StoredMessage) (m : StoredMessage) :
    (upsertBody l m).length ≤ l.length + 1 := by
  unfold upsertBody
  refine le_trans (length_capSorted_le _) ?_
  split
  · next h => exact le_trans (le_of_eq (length_replaceById l m)) (Nat.le_succ _)
  · next h => simp

/-- Replacing by id leaves the sequence of ids unchanged. -/
lemma map_id_replaceById (l : List StoredMessage) (m : StoredMessage) :
    (replaceById l m).map (fun x => x.id) = l.map (fun x => x.id) := by
  induction l with
  | nil => rfl
  | cons x xs ih =>
      simp only [replaceById]
      split
      · next h => simp [h]
      · next h => simp [ih]

lemma not_mem_ids_of_any_eq_false {l : List StoredMessage} {i : Str}
    (h : l.any (fun x => x.id = i) = false) : i ∉ l.map (fun x => x.id) := by
  simp only [List.any_eq_false, decide_eq_true_eq] at h
  intro hmem
  obtain ⟨x, hx, hxi⟩ := List.mem_map.mp hmem
  exact h x hx hxi

/-- Sorting and capping preserve distinctness of ids. -/
lemma nodup_ids_capSorted (l : List StoredMessage)
    (h : (l.map (fun x => x.id)).Nodup) :
    ((capSorted l).map (fun x => x.id)).Nodup := by
  have hperm : ((l.mergeSort leTs).map (fun x => x.id)).Perm (l.map (fun x => x.id)) :=
    (List.mergeSort_perm l leTs).map _
  have hs : ((l.mergeSort leTs).map (fun x => x.id)).Nodup := hperm.nodup_iff.mpr h
  unfold capSorted
  split
  · exact List.Nodup.sublist ((List.drop_sublist _ _).map _) hs
  · exact hs

/-- An upsert preserves distinctness of ids: replacement keeps the id
sequence, appending adds an id that was absent. -/
lemma nodup_ids_upsertBody (l : List StoredMessage) (m : StoredMessage)
    (h : (l.map (fun x => x.id)).Nodup) :
    ((upsertBody l m).map (fun x => x.id)).Nodup := by
  unfold upsertBody
  apply nodup_ids_capSorted
  split
  · next => rw [map_id_replaceById]; exact h
  · next hany =>
      rw [List.map_append, List.nodup_append]
      refine ⟨h, by simp, ?_⟩
      intro a ha hb
      simp only [List.map_cons, List.map_nil, List.mem_singleton] at hb
      subst hb
      exact not_mem_ids_of_any_eq_false (Bool.of_not_eq_true hany) ha

lemma mem_replaceById_self {l : List StoredMessage} {m : StoredMessage}
    (h : l.any (fun x => x.id = m.id) = true) : m ∈ replaceById l m := by
  induction l with
  | nil => simp at h
  | cons x xs ih =>
      simp only [List.any_cons, Bool.or_eq_true, decide_eq_true_eq] at h
      simp only [replaceById]
      split
      · exact List.mem_cons_self _ _
      · next hx =>
          rcases h with h | h
          · exact absurd h hx
          · exact List.mem_cons_of_mem _ (ih h)

lemma eq_of_mem_replaceById {l : List StoredMessage} {m x : StoredMessage}
    (hnd : (l.map (fun y => y.id)).Nodup)
    (hx : x ∈ replaceById l m) (hid : x.id = m.id) : x = m := by
  induction l with
  | nil => simp [replaceById] at hx
  | cons y ys ih =>
      simp only [List.map_cons, List.nodup_cons] at hnd
      obtain ⟨hy, hys⟩ := hnd
      simp only [replaceById] at hx
      split at hx
      · next hyid =>
          rcases List.mem_cons.mp hx with rfl | hmem
          · rfl
          · exfalso
            have hxin : x.id ∈ ys.map (fun z => z.id) :=
              List.mem_map_of_mem (fun z => z.id) hmem
            rw [hid, ← hyid] at hxin
            exact hy hxin
      · next hyid =>
          rcases List.mem_cons.mp hx with rfl | hmem
          · exact absurd hid hyid
          · exact ih hys hmem

/-- Distinct ids bound the number of entries carrying any one id by one. -/
lemma countP_id_le_one {l : List StoredMessage} (i : Str)
    (hnd : (l.map (fun x => x.id)).Nodup) :
    l.countP (fun x => x.id = i) ≤ 1 := by
  induction l with
  | nil => simp
  | cons x xs ih =>
      simp only [List.map_cons, List.nodup_cons] at hnd
      obtain ⟨hx, hxs⟩ := hnd
      rw [List.countP_cons]
      by_cases hxi : x.id = i
      · have hz : xs.countP (fun y => y.id = i) = 0 := by
          rw [List.countP_eq_zero]
          intro y hy
          simp only [decide_eq_true_eq]
          intro hyi
          exact hx (hxi ▸ hyi ▸ List.mem_map_of_mem (fun z => z.id) hy)
        simp [hz, hxi]
      · simpa [hxi] using ih hxs

/-- One upsert below the cap: the incoming message is present, it is the
only entry with its id, and nothing else carries that id. -/
lemma upsertBody_last_write (l : List StoredMessage) (m : StoredMessage)
    (hnd : (l.map (fun x => x.id)).Nodup) (hlen : l.length < MSG_CAP) :
    m ∈ upsertBody l m ∧
    (∀ x ∈ upsertBody l m, x.id = m.id → x = m) ∧
    (upsertBody l m).countP (fun x => x.id = m.id) = 1 := by
  unfold upsertBody
  set merged := (if l.any (fun x => x.id = m.id) then replaceById l m else l ++ [m]) with hmerged
  have hmlen : merged.length ≤ MSG_CAP := by
    rw [hmerged]; split
    · next => rw [length_replaceById]; omega
    · next => rw [List.length_append]; simp; omega
  have hcap : capSorted merged = merged.mergeSort leTs := capSorted_of_le_cap _ hmlen
  have hmm : m ∈ merged := by
    rw [hmerged]; split
    · next h => exact mem_replaceById_self h
    · next => simp
  have huni : ∀ x ∈ merged, x.id = m.id → x = m := by
    rw [hmerged]
    split
    · next h => exact fun x hx hid => eq_of_mem_replaceById hnd hx hid
    · next h =>
        intro x hx hid
        rcases List.mem_append.mp hx with hxl | hxm
        · exact absurd (hid ▸ List.mem_map_of_mem (fun z => z.id) hxl)
            (not_mem_ids_of_any_eq_false (Bool.of_not_eq_true h))
        · simpa using hxm
  have hndm : (merged.map (fun x => x.id)).Nodup := by
    rw [hmerged]; split
    · next => rw [map_id_replaceById]; exact hnd
    · next hany =>
        rw [List.map_append, List.nodup_append]
        refine ⟨hnd, by simp, ?_⟩
        intro a ha hb
        simp only [List.map_cons, List.map_nil, List.mem_singleton] at hb
        subst hb
        exact not_mem_ids_of_any_eq_false (Bool.of_not_eq_true hany) ha
  refine ⟨?_, ?_, ?_⟩
  · rw [hcap]; exact List.mem_mergeSort.mpr hmm
  · intro x hx hid
    rw [hcap] at hx
    exact huni x (List.mem_mergeSort.mp hx) hid
  · rw [hcap, (List.mergeSort_perm merged leTs).countP_eq]
    have hle : merged.countP (fun x => x.id = m.id) ≤ 1 := countP_id_le_one _ hndm
    have hpos : 0 < merged.countP (fun x => x.id = m.id) :=
      List.countP_pos_iff.mpr ⟨m, hmm, by simp⟩
    omega

lemma nodup_ids_foldl (cs : List StoredMessage) (start : List StoredMessage)
    (h : (start.map (fun x => x.id)).Nodup) :
    ((cs.foldl upsertBody start).map (fun x => x.id)).Nodup := by
  induction cs generalizing start with
  | nil => exact h
  | cons c cs ih => exact ih _ (nodup_ids_upsertBody _ _ h)

lemma length_foldl_le (cs : List StoredMessage) (start : List StoredMessage) :
    (cs.foldl upsertBody start).length ≤ start.length + cs.length := by
  induction cs generalizing start with
  | nil => simp
  | cons c cs ih =>
      simp only [List.foldl_cons, List.length_cons]
      have h1 := ih (upsertBody start c)
      have h2 := length_upsertBody_le_succ start c
      omega

lemma ts_le_getLast : ∀ (l : List StoredMessage),
    List.Sorted (fun a b => a.ts ≤ b.ts) l → ∀ (hne : l ≠ []),
    ∀ x ∈ l, x.ts ≤ (l.getLast hne).ts
  | [], _, hne, _, _ => absurd rfl hne
  | [a], _, _, x, hx => by
      simp only [List.mem_singleton] at hx
      subst hx
      simp [List.getLast]
  | a :: b :: t, hs, hne, x, hx => by
      have hcons := List.pairwise_cons.mp hs
      rw [List.getLast_cons (by simp : b :: t ≠ [])]
      rcases List.mem_cons.mp hx with rfl | hmem
      · exact hcons.1 _ (List.getLast_mem (by simp))
      · exact ts_le_getLast (b :: t) hcons.2 (by simp) x hmem

/-- In a ts-sorted list every kept (dropped-past) element dominates every
element of the prefix. -/
lemma sorted_take_drop_ts {s : List StoredMessage}
    (hs : List.Sorted (fun a b => a.ts ≤ b.ts) s) (k : Nat) :
    ∀ x ∈ s.take k, ∀ y ∈ s.drop k, x.ts ≤ y.ts := by
  rw [← List.take_append_drop k s] at hs
  exact (List.pairwise_append.mp hs).2.2

/-- C1 (amended): starting from a document whose message ids are pairwise
distinct, after any finite sequence of upserts whose final call carries
message m, the array is sorted by ts ascending and holds at most one entry
with the id of m; when the number of messages involved stays below the
500-entry cap (so the final entry cannot be evicted), it holds exactly one
entry with that id and the entry equals m, the last write in arrival
order. -/
theorem upsert_idempotent_for_last_id (start cs : List StoredMessage) (m : StoredMessage)
    (hnd : (start.map (fun x => x.id)).Nodup) :
    List.Sorted (fun a b => a.ts ≤ b.ts) ((cs ++ [m]).foldl upsertBody start) ∧
    ((cs ++ [m]).foldl upsertBody start).countP (fun x => x.id = m.id) ≤ 1 ∧
    (start.length + cs.length < MSG_CAP →
      m ∈ (cs ++ [m]).foldl upsertBody start ∧
      ((cs ++ [m]).foldl upsertBody start).countP (fun x => x.id = m.id) = 1 ∧
      ∀ x ∈ (cs ++ [m]).foldl upsertBody start, x.id = m.id → x = m) := by
  have hfold : (cs ++ [m]).foldl upsertBody start = upsertBody (cs.foldl upsertBody start) m :=
    List.foldl_concat _ _ _ _
  have hprev : ((cs.foldl upsertBody start).map (fun x => x.id)).Nodup :=
    nodup_ids_foldl cs start hnd
  refine ⟨?_, ?_, ?_⟩
  · rw [hfold]; exact sorted_upsertBody _ _
  · rw [hfold]; exact countP_id_le_one _ (nodup_ids_upsertBody _ _ hprev)
  · intro hlen
    have hplen : (cs.foldl upsertBody start).length < MSG_CAP :=
      lt_of_le_of_lt (length_foldl_le cs start) hlen
    obtain ⟨h1, h2, h3⟩ := upsertBody_last_write _ m hprev hplen
    rw [hfold]
    exact ⟨h1, h3, h2⟩

/-- Witness for C1: two writes with the same id a (the second replaces the
first), on an initially empty transcript. -/
theorem upsert_idempotent_for_last_id_witness :
    (([(⟨str "a", MsgRole.user, str "hi", 5, Provider.ultramsg, MessageKind.chat⟩ : StoredMessage)] ++
      [(⟨str "a", MsgRole.user, str "hello", 9, Provider.ultramsg, MessageKind.chat⟩ : StoredMessage)]).foldl
        upsertBody []).countP (fun x => x.id = str "a") = 1 := by
  have h := upsert_idempotent_for_last_id []
    [(⟨str "a", MsgRole.user, str "hi", 5, Provider.ultramsg, MessageKind.chat⟩ : StoredMessage)]
    (⟨str "a", MsgRole.user, str "hello", 9, Provider.ultramsg, MessageKind.chat⟩ : StoredMessage)
    (by simp)
  exact (h.2.2 (by simp [MSG_CAP])).2.1

/-- A sorted list short of the cap passes the sort-and-cap stage unchanged. -/
lemma capSorted_of_sorted (l : List StoredMessage)
    (hs : List.Pairwise (fun a b => leTs a b = true) l) (hlen : l.length ≤ MSG_CAP) :
    capSorted l = l := by
  unfold capSorted
  rw [List.mergeSort_of_sorted hs, if_neg (Nat.not_lt.mpr hlen)]

/-- Evaluation helper: an upsert of a fresh id onto a transcript that stays
sorted is a plain append. -/
lemma upsertBody_append_of_sorted (l : List StoredMessage) (m : StoredMessage)
    (hany : l.any (fun x => x.id = m.id) = false)
    (hs : List.Pairwise (fun a b => leTs a b = true) (l ++ [m]))
    (hlen : l.length + 1 ≤ MSG_CAP) :
    upsertBody l m = l ++ [m] := by
  unfold upsertBody
  rw [if_neg (by simp [hany]), capSorted_of_sorted _ hs (by simpa using hlen)]

/-- Evaluation helper: an upsert of a present id whose replacement stays
sorted is a plain in-place replacement. -/
lemma upsertBody_replace_of_sorted (l : List StoredMessage) (m : StoredMessage)
    (hany : l.any (fun x => x.id = m.id) = true)
    (hs : List.Pairwise (fun a b => leTs a b = true) (replaceById l m))
    (hlen : l.length ≤ MSG_CAP) :
    upsertBody l m = replaceById l m := by
  unfold upsertBody
  rw [if_pos hany, capSorted_of_sorted _ hs (by rw [length_replaceById]; exact hlen)]

/-- Counterexample to C1 as stated: the claim quantifies over every starting
document state, but if the starting array already holds two entries with id
a, one further upsert of id a replaces only the first match (findIndex) and
the result still holds two entries with that id, not exactly one. -/
theorem upsert_duplicate_start_state_keeps_two :
    (upsertBody
        [⟨str "a", MsgRole.user, str "x", 1, Provider.ultramsg, MessageKind.chat⟩,
         ⟨str "a", MsgRole.user, str "y", 2, Provider.ultramsg, MessageKind.chat⟩]
        ⟨str "a", MsgRole.user, str "z", 1, Provider.ultramsg, MessageKind.chat⟩).countP
      (fun x => x.id = str "a") = 2 := by
  rw [upsertBody_replace_of_sorted _ _ (by decide) (by decide) (by decide)]
  decide

/-- C7: after every single upsert transaction the messages array is sorted
by ts ascending and holds at most 500 entries; when a fresh-id append pushes
the array past the cap, the result is exactly the sorted array minus its
oldest entries (the drop of the smallest-ts prefix), every evicted entry has
a ts at most that of every kept entry, and a newest entry (one of maximal
ts) is always kept. -/
theorem upsert_bounded_sorted_eviction (l : List StoredMessage) (m : StoredMessage) :
    List.Sorted (fun a b => a.ts ≤ b.ts) (upsertBody l m) ∧
    (upsertBody l m).length ≤ MSG_CAP ∧
    (l.any (fun x => x.id = m.id) = false → MSG_CAP < l.length + 1 →
      upsertBody l m =
        ((l ++ [m]).mergeSort leTs).drop (((l ++ [m]).mergeSort leTs).length - MSG_CAP) ∧
      (∀ x ∈ ((l ++ [m]).mergeSort leTs).take (((l ++ [m]).mergeSort leTs).length - MSG_CAP),
        ∀ y ∈ upsertBody l m, x.ts ≤ y.ts) ∧
      ∃ y ∈ upsertBody l m, ∀ x ∈ l ++ [m], x.ts ≤ y.ts) := by
  refine ⟨sorted_upsertBody l m, length_upsertBody_le_cap l m, ?_⟩
  intro hany hlen
  have hslen : ((l ++ [m]).mergeSort leTs).length = l.length + 1 := by
    rw [List.length_mergeSort, List.length_append]
    simp
  have heq : upsertBody l m =
      ((l ++ [m]).mergeSort leTs).drop (((l ++ [m]).mergeSort leTs).length - MSG_CAP) := by
    unfold upsertBody
    rw [if_neg (by simp [hany])]
    unfold capSorted
    rw [if_pos (by omega)]
  refine ⟨heq, ?_, ?_⟩
  · intro x hx y hy
    rw [heq] at hy
    exact sorted_take_drop_ts (sorted_mergeSort_ts (l ++ [m])) _ x hx y hy
  · have hpos : 0 < MSG_CAP := by decide
    have hreslen : (upsertBody l m).length = MSG_CAP := by
      rw [heq, List.length_drop]
      omega
    have hres : upsertBody l m ≠ [] := by
      intro hnil
      rw [hnil] at hreslen
      simp at hreslen
      omega
    refine ⟨(upsertBody l m).getLast hres, List.getLast_mem hres, ?_⟩
    intro x hx
    have hxs : x ∈ (l ++ [m]).mergeSort leTs := List.mem_mergeSort.mpr hx
    have hylast : ∀ z ∈ upsertBody l m, z.ts ≤ ((upsertBody l m).getLast hres).ts :=
      ts_le_getLast _ (sorted_upsertBody l m) hres
    rw [← List.take_append_drop (((l ++ [m]).mergeSort leTs).length - MSG_CAP)
      ((l ++ [m]).mergeSort leTs)] at hxs
    rcases List.mem_append.mp hxs with htake | hdrop
    · exact sorted_take_drop_ts (sorted_mergeSort_ts (l ++ [m])) _ x htake
        ((upsertBody l m).getLast hres) (by rw [← heq]; exact List.getLast_mem hres)
    · exact hylast x (by rw [heq]; exact hdrop)

/- =========================
   Numeral equivalence (C5) and truncation (C6)
========================= -/

lemma latinOfDigit_not_native (c : Char)
    (h : ¬ c ∈ (['٠', '١', '٢', '٣', '٤', '٥', '٦', '٧', '٨', '٩',
                 '۰', '۱', '۲', '۳', '۴', '۵', '۶', '۷', '۸', '۹'] : List Char)) :
    latinOfDigit c = c := by
  simp only [List.mem_cons, List.not_mem_nil, or_false, not_or] at h
  obtain ⟨h1, h2, h3, h4, h5, h6, h7, h8, h9, h10,
    h11, h12, h13, h14, h15, h16, h17, h18, h19, h20⟩ := h
  unfold latinOfDigit
  rw [if_neg h1, if_neg h2, if_neg h3, if_neg h4, if_neg h5, if_neg h6, if_neg h7,
    if_neg h8, if_neg h9, if_neg h10, if_neg h11, if_neg h12, if_neg h13, if_neg h14,
    if_neg h15, if_neg h16, if_neg h17, if_neg h18, if_neg h19, if_neg h20]

lemma latinOfDigit_idem (c : Char) : latinOfDigit (latinOfDigit c) = latinOfDigit c := by
  by_cases h : c ∈ (['٠', '١', '٢', '٣', '٤', '٥', '٦', '٧', '٨', '٩',
                     '۰', '۱', '۲', '۳', '۴', '۵', '۶', '۷', '۸', '۹'] : List Char)
  · simp only [List.mem_cons, List.not_mem_nil, or_false] at h
    rcases h with rfl | rfl | rfl | rfl | rfl | rfl | rfl | rfl | rfl | rfl |
      rfl | rfl | rfl | rfl | rfl | rfl | rfl | rfl | rfl | rfl <;> rfl
  · rw [latinOfDigit_not_native c h]
    exact latinOfDigit_not_native c h

/-- Latinizing numerals is idempotent: a string already put through the
digit mapping is left unchanged by a second pass. -/
lemma toLatinDigits_idem (s : Str) : toLatinDigits (toLatinDigits s) = toLatinDigits s := by
  simp only [toLatinDigits, List.map_map]
  exact List.map_congr_left fun c _ => latinOfDigit_idem c

/-- C5: numeral equivalence. Replacing each Arabic-Indic or Extended
Arabic-Indic digit of an input by its Latin equivalent (the toLatinDigits
mapping) does not change the validated value at any onboarding step: gender,
location, and age normalization all agree on the original string and on its
Latin-digit form. -/
theorem numeral_equivalence (s : Str) :
    normalizeGender (toLatinDigits s) = normalizeGender s ∧
    normalizeLocation (toLatinDigits s) = normalizeLocation s ∧
    parseAge (toLatinDigits s) = parseAge s := by
  have h := toLatinDigits_idem s
  refine ⟨?_, ?_, ?_⟩
  · simp only [normalizeGender, h]
  · simp only [normalizeLocation, h]
  · simp only [parseAge, h]

/-- C6: truncation law. When the inbound text matches no elaboration
keyword and the generated reply splits into more than four sentences, the
delivered reply is exactly the first four sentences (joined by single
spaces); an elaboration request passes the reply through untruncated, and a
reply of at most four sentences is returned unchanged. -/
theorem truncation_law (inbound reply : Str) :
    (userRequestedDetails inbound = false → 4 < (sentenceParts reply).length →
      applyLengthPolicy inbound reply = joinWith (str " ") ((sentenceParts reply).take 4)) ∧
    (userRequestedDetails inbound = true → applyLengthPolicy inbound reply = reply) ∧
    ((sentenceParts reply).length ≤ 4 → applyLengthPolicy inbound reply = reply) := by
  refine ⟨?_, ?_, ?_⟩
  · intro hw hlen
    simp only [applyLengthPolicy, hw, Bool.false_eq_true, if_false, shortenToSentences]
    rw [if_neg (Nat.not_le.mpr hlen)]
  · intro hw
    simp [applyLengthPolicy, hw]
  · intro hlen
    by_cases hw : userRequestedDetails inbound
    · simp [applyLengthPolicy, hw]
    · simp only [applyLengthPolicy, hw, Bool.false_eq_true, if_false, shortenToSentences]
      rw [if_pos hlen]

/-- Witness for C6: a five-sentence reply to a non-elaborating inbound text
is cut to its first four sentences. -/
theorem truncation_law_witness :
    applyLengthPolicy (str "hi") (str "A one. B two. C three. D four. E five.") =
      joinWith (str " ")
        ((sentenceParts (str "A one. B two. C three. D four. E five.")).take 4) := by
  have h := truncation_law (str "hi") (str "A one. B two. C three. D four. E five.")
  exact h.1 (by decide) (by decide)

/- =========================
   Evaluation lemmas for the POST handler model
========================= -/

lemma respondAndSend_doc (inp : PostInput) (reply : Str) (doc : Option UserDoc)
    (calls : List (List ChatMessage)) (sf : Bool) :
    (respondAndSend inp reply doc calls sf).doc = doc := by
  unfold respondAndSend
  split <;> (try split_ifs) <;> rfl

lemma respondAndSend_status (inp : PostInput) (reply : Str) (doc : Option UserDoc)
    (calls : List (List ChatMessage)) (sf : Bool) :
    (respondAndSend inp reply doc calls sf).resp.status = 200 := by
  unfold respondAndSend
  split <;> (try split_ifs) <;> rfl

lemma finishOnboarding_ok (d : UserDoc) (inp : PostInput) (ts2 : Int) (o : Oracles)
    (reply : Str) (hout : o.upsertOutFails = false) :
    finishOnboarding d inp ts2 o reply =
      respondAndSend inp reply
        (some ⟨d.profile, upsertBody d.messages
          ⟨str "assistant_" ++ inp.messageId, .assistant, reply, ts2, inp.provider, .onboarding⟩⟩)
        [] o.sendFails := by
  unfold finishOnboarding
  rw [if_neg (by simp [hout])]
  rfl

lemma finishOnboarding_doc (d : UserDoc) (inp : PostInput) (ts2 : Int) (o : Oracles)
    (reply : Str) :
    ∃ d', (finishOnboarding d inp ts2 o reply).doc = some d' ∧ d'.profile = d.profile := by
  unfold finishOnboarding
  split_ifs
  · exact ⟨d, rfl, rfl⟩
  · rw [respondAndSend_doc]
    exact ⟨_, rfl, rfl⟩

lemma finishOnboarding_status (d : UserDoc) (inp : PostInput) (ts2 : Int) (o : Oracles)
    (reply : Str) : (finishOnboarding d inp ts2 o reply).resp.status = 200 := by
  unfold finishOnboarding
  split_ifs
  · rfl
  · rw [respondAndSend_status]

lemma finishChat_ok (d : UserDoc) (inp : PostInput) (ts2 : Int) (o : Oracles)
    (calls : List (List ChatMessage)) (reply : Str) (hout : o.upsertOutFails = false) :
    finishChat d inp ts2 o calls reply =
      respondAndSend inp reply
        (some ⟨d.profile, upsertBody d.messages
          ⟨str "assistant_" ++ inp.messageId, .assistant, reply, ts2, inp.provider, .chat⟩⟩)
        calls o.sendFails := by
  unfold finishChat
  rw [if_neg (by simp [hout])]
  rfl

lemma finishChat_doc (d : UserDoc) (inp : PostInput) (ts2 : Int) (o : Oracles)
    (calls : List (List ChatMessage)) (reply : Str) :
    ∃ d', (finishChat d inp ts2 o calls reply).doc = some d' ∧ d'.profile = d.profile := by
  unfold finishChat
  split_ifs
  · exact ⟨d, rfl, rfl⟩
  · rw [respondAndSend_doc]
    exact ⟨_, rfl, rfl⟩

lemma finishChat_status (d : UserDoc) (inp : PostInput) (ts2 : Int) (o : Oracles)
    (calls : List (List ChatMessage)) (reply : Str) :
    (finishChat d inp ts2 o calls reply).resp.status = 200 := by
  unfold finishChat
  split_ifs
  · rfl
  · rw [respondAndSend_status]

lemma onboardingBranch_gender_invalid (d : UserDoc) (inp : PostInput) (ts2 : Int)
    (o : Oracles) (hg : normalizeGender inp.text = none) :
    onboardingBranch d inp ts2 o (str "gender") = finishOnboarding d inp ts2 o Q1 := by
  unfold onboardingBranch
  rw [if_pos rfl, hg]

lemma onboardingBranch_gender_valid (d : UserDoc) (inp : PostInput) (ts2 : Int)
    (o : Oracles) (g : NormAnswer) (hg : normalizeGender inp.text = some g)
    (hup : o.updateProfileFails = false) :
    onboardingBranch d inp ts2 o (str "gender") =
      finishOnboarding
        ⟨{ d.profile with gender := some g.value, genderLabel := some g.label,
                          onboardingStep := str "location" }, d.messages⟩
        inp ts2 o Q2 := by
  unfold onboardingBranch
  rw [if_pos rfl, hg]
  simp only [hup, Bool.false_eq_true, if_false]

lemma onboardingBranch_location_invalid (d : UserDoc) (inp : PostInput) (ts2 : Int)
    (o : Oracles) (hl : normalizeLocation inp.text = none) :
    onboardingBranch d inp ts2 o (str "location") = finishOnboarding d inp ts2 o Q2 := by
  unfold onboardingBranch
  rw [if_neg (by decide), if_pos rfl, hl]

lemma onboardingBranch_location_valid (d : UserDoc) (inp : PostInput) (ts2 : Int)
    (o : Oracles) (loc : NormAnswer) (hl : normalizeLocation inp.text = some loc)
    (hup : o.updateProfileFails = false) :
    onboardingBranch d inp ts2 o (str "location") =
      finishOnboarding
        ⟨{ d.profile with location := some loc.value, locationLabel := some loc.label,
                          onboardingStep := str "age" }, d.messages⟩
        inp ts2 o Q3 := by
  unfold onboardingBranch
  rw [if_neg (by decide), if_pos rfl, hl]
  simp only [hup, Bool.false_eq_true, if_false]

lemma onboardingBranch_age_invalid (d : UserDoc) (inp : PostInput) (ts2 : Int)
    (o : Oracles) (ha : parseAge inp.text = none) :
    onboardingBranch d inp ts2 o (str "age") = finishOnboarding d inp ts2 o Q3 := by
  unfold onboardingBranch
  rw [if_neg (by decide), if_neg (by decide), if_pos rfl, ha]

lemma onboardingBranch_age_valid (d : UserDoc) (inp : PostInput) (ts2 : Int)
    (o : Oracles) (a : Int) (ha : parseAge inp.text = some a)
    (hup : o.updateProfileFails = false) :
    onboardingBranch d inp ts2 o (str "age") =
      finishOnboarding
        ⟨{ d.profile with age := some a, onboardingStep := str "done" }, d.messages⟩
        inp ts2 o WELCOME := by
  unfold onboardingBranch
  rw [if_neg (by decide), if_neg (by decide), if_pos rfl, ha]
  simp only [hup, Bool.false_eq_true, if_false]

lemma onboardingBranch_gender_valid_upfail (d : UserDoc) (inp : PostInput) (ts2 : Int)
    (o : Oracles) (g : NormAnswer) (hg : normalizeGender inp.text = some g)
    (hup : o.updateProfileFails = true) :
    onboardingBranch d inp ts2 o (str "gender") = catchOutcome (some d) [] [] := by
  unfold onboardingBranch
  rw [if_pos rfl, hg]
  simp only [hup, if_true]

lemma onboardingBranch_location_valid_upfail (d : UserDoc) (inp : PostInput) (ts2 : Int)
    (o : Oracles) (loc : NormAnswer) (hl : normalizeLocation inp.text = some loc)
    (hup : o.updateProfileFails = true) :
    onboardingBranch d inp ts2 o (str "location") = catchOutcome (some d) [] [] := by
  unfold onboardingBranch
  rw [if_neg (by decide), if_pos rfl, hl]
  simp only [hup, if_true]

lemma onboardingBranch_age_valid_upfail (d : UserDoc) (inp : PostInput) (ts2 : Int)
    (o : Oracles) (a : Int) (ha : parseAge inp.text = some a)
    (hup : o.updateProfileFails = true) :
    onboardingBranch d inp ts2 o (str "age") = catchOutcome (some d) [] [] := by
  unfold onboardingBranch
  rw [if_neg (by decide), if_neg (by decide), if_pos rfl, ha]
  simp only [hup, if_true]

lemma onboardingBranch_else (d : UserDoc) (inp : PostInput) (ts2 : Int) (o : Oracles)
    (step : Str) (h1 : step ≠ str "gender") (h2 : step ≠ str "location")
    (h3 : step ≠ str "age") (hup : o.updateProfileFails = false) :
    onboardingBranch d inp ts2 o step =
      finishOnboarding ⟨{ d.profile with onboardingStep := str "gender" }, d.messages⟩
        inp ts2 o Q1 := by
  unfold onboardingBranch
  rw [if_neg h1, if_neg h2, if_neg h3]
  simp only [hup, Bool.false_eq_true, if_false]

lemma onboardingBranch_else_upfail (d : UserDoc) (inp : PostInput) (ts2 : Int) (o : Oracles)
    (step : Str) (h1 : step ≠ str "gender") (h2 : step ≠ str "location")
    (h3 : step ≠ str "age") (hup : o.updateProfileFails = true) :
    onboardingBranch d inp ts2 o step = catchOutcome (some d) [] [] := by
  unfold onboardingBranch
  rw [if_neg h1, if_neg h2, if_neg h3]
  simp only [hup, if_true]

lemma onboardingBranch_status (d : UserDoc) (inp : PostInput) (ts2 : Int) (o : Oracles)
    (step : Str) : (onboardingBranch d inp ts2 o step).resp.status = 200 := by
  by_cases hup : o.updateProfileFails
  all_goals by_cases h1 : step = str "gender"
  all_goals try subst h1
  all_goals try by_cases h2 : step = str "location"
  all_goals try subst h2
  all_goals try by_cases h3 : step = str "age"
  all_goals try subst h3
  · rcases hg : normalizeGender inp.text with _ | g
    · rw [onboardingBranch_gender_invalid _ _ _ _ hg, finishOnboarding_status]
    · rw [onboardingBranch_gender_valid_upfail _ _ _ _ _ hg hup]
      rfl
  · rcases hl : normalizeLocation inp.text with _ | loc
    · rw [onboardingBranch_location_invalid _ _ _ _ hl, finishOnboarding_status]
    · rw [onboardingBranch_location_valid_upfail _ _ _ _ _ hl hup]
      rfl
  · rcases ha : parseAge inp.text with _ | a
    · rw [onboardingBranch_age_invalid _ _ _ _ ha, finishOnboarding_status]
    · rw [onboardingBranch_age_valid_upfail _ _ _ _ _ ha hup]
      rfl
  · rw [onboardingBranch_else_upfail _ _ _ _ _ h1 h2 h3 hup]
    rfl
  · rcases hg : normalizeGender inp.text with _ | g
    · rw [onboardingBranch_gender_invalid _ _ _ _ hg, finishOnboarding_status]
    · rw [onboardingBranch_gender_valid _ _ _ _ _ hg (by simpa using hup),
        finishOnboarding_status]
  · rcases hl : normalizeLocation inp.text with _ | loc
    · rw [onboardingBranch_location_invalid _ _ _ _ hl, finishOnboarding_status]
    · rw [onboardingBranch_location_valid _ _ _ _ _ hl (by simpa using hup),
        finishOnboarding_status]
  · rcases ha : parseAge inp.text with _ | a
    · rw [onboardingBranch_age_invalid _ _ _ _ ha, finishOnboarding_status]
    · rw [onboardingBranch_age_valid _ _ _ _ _ ha (by simpa using hup),
        finishOnboarding_status]
  · rw [onboardingBranch_else _ _ _ _ _ h1 h2 h3 (by simpa using hup),
      finishOnboarding_status]

lemma chatBranch_offtopic (d : UserDoc) (inp : PostInput) (ts2 : Int) (o : Oracles)
    (all : List StoredMessage) (hot : isClearlyOffTopic inp.text = true) :
    chatBranch d inp ts2 o all =
      finishChat d inp ts2 o [] (offTopicReply (containsArabic inp.text)) := by
  unfold chatBranch
  rw [if_pos hot]

lemma chatBranch_ontopic (d : UserDoc) (inp : PostInput) (ts2 : Int) (o : Oracles)
    (all : List StoredMessage) (hot : isClearlyOffTopic inp.text = false)
    (hllm : o.llmFails = false) :
    chatBranch d inp ts2 o all =
      finishChat d inp ts2 o
        [⟨ChatRole.system, SYSTEM_PROMPT⟩ :: languageEnforcer (containsArabic inp.text) ::
          (buildHistoryForLLM all ++ [⟨ChatRole.user, inp.text⟩])]
        (applyLengthPolicy inp.text
          (stripMd (if (trim o.llmText).isEmpty then llmFallback (containsArabic inp.text)
                    else trim o.llmText))) := by
  unfold chatBranch
  rw [if_neg (by simp [hot])]
  simp only [hllm, Bool.false_eq_true, if_false]

lemma chatBranch_llm_fails (d : UserDoc) (inp : PostInput) (ts2 : Int) (o : Oracles)
    (all : List StoredMessage) (hot : isClearlyOffTopic inp.text = false)
    (hllm : o.llmFails = true) :
    chatBranch d inp ts2 o all =
      catchOutcome (some d) []
        [⟨ChatRole.system, SYSTEM_PROMPT⟩ :: languageEnforcer (containsArabic inp.text) ::
          (buildHistoryForLLM all ++ [⟨ChatRole.user, inp.text⟩])] := by
  unfold chatBranch
  rw [if_neg (by simp [hot])]
  simp only [hllm, if_true]

lemma chatBranch_status (d : UserDoc) (inp : PostInput) (ts2 : Int) (o : Oracles)
    (all : List StoredMessage) : (chatBranch d inp ts2 o all).resp.status = 200 := by
  by_cases hot : isClearlyOffTopic inp.text
  · rw [chatBranch_offtopic _ _ _ _ _ hot, finishChat_status]
  · by_cases hllm : o.llmFails
    · rw [chatBranch_llm_fails _ _ _ _ _ (by simpa using hot) hllm]
      rfl
    · rw [chatBranch_ontopic _ _ _ _ _ (by simpa using hot) (by simpa using hllm),
        finishChat_status]

lemma chatBranch_doc (d : UserDoc) (inp : PostInput) (ts2 : Int) (o : Oracles)
    (all : List StoredMessage) :
    ∃ d', (chatBranch d inp ts2 o all).doc = some d' ∧ d'.profile = d.profile := by
  by_cases hot : isClearlyOffTopic inp.text
  · rw [chatBranch_offtopic _ _ _ _ _ hot]
    exact finishChat_doc _ _ _ _ _ _
  · by_cases hllm : o.llmFails
    · rw [chatBranch_llm_fails _ _ _ _ _ (by simpa using hot) hllm]
      exact ⟨d, rfl, rfl⟩
    · rw [chatBranch_ontopic _ _ _ _ _ (by simpa using hot) (by simpa using hllm)]
      exact finishChat_doc _ _ _ _ _ _

/-- With a live user id, a chat-type event and working Firestore calls, the
handler records the inbound message (always with kind chat) and runs the
branch selected by the stored onboarding step. -/
lemma POSTmodel_run (d : UserDoc) (inp : PostInput) (ts1 ts2 : Int) (o : Oracles)
    (hu : inp.userId.isEmpty = false) (hsk : ultraSkip inp = false)
    (h1 : o.ensureFails = false) (h2 : o.upsertInFails = false)
    (h3 : o.readFails = false) :
    POSTmodel (some d) inp ts1 ts2 o =
      (if (if d.profile.onboardingStep.isEmpty then str "gender"
           else d.profile.onboardingStep) ≠ str "done" then
        onboardingBranch
          ⟨d.profile, upsertBody d.messages
            ⟨inp.messageId, .user, inp.text, ts1, inp.provider, .chat⟩⟩
          inp ts2 o
          (if d.profile.onboardingStep.isEmpty then str "gender"
           else d.profile.onboardingStep)
      else
        chatBranch
          ⟨d.profile, upsertBody d.messages
            ⟨inp.messageId, .user, inp.text, ts1, inp.provider, .chat⟩⟩
          inp ts2 o
          (upsertBody d.messages
            ⟨inp.messageId, .user, inp.text, ts1, inp.provider, .chat⟩)) := by
  unfold POSTmodel
  rw [if_neg (by simp [hu]), if_neg (by simp [hsk])]
  simp only [h1, h2, h3, Bool.false_eq_true, if_false]
  rfl

lemma POSTmodel_status (doc0 : Option UserDoc) (inp : PostInput) (ts1 ts2 : Int)
    (o : Oracles) : (POSTmodel doc0 inp ts1 ts2 o).resp.status = 200 := by
  unfold POSTmodel
  split_ifs <;> try rfl
  all_goals simp only []
  all_goals split_ifs <;>
    first
      | rw [onboardingBranch_status]
      | rw [chatBranch_status]

/-- C8: the webhook always acknowledges. Whatever the parsed body (including
a parse failure), the starting document state, the timestamps, and the
success or failure of every external call (Firestore, the completion
endpoint, the UltraMsg send), the POST handler returns HTTP status 200 -
the outer try/catch converts every thrown error into the fixed 200 TwiML
answer, so per-message errors never escape as unhandled faults. -/
theorem webhook_always_acknowledges (parsed : Option PostInput) (doc0 : Option UserDoc)
    (ts1 ts2 : Int) (o : Oracles) :
    (POSTfull parsed doc0 ts1 ts2 o).resp.status = 200 := by
  unfold POSTfull
  cases parsed with
  | none => rfl
  | some inp => rw [POSTmodel_status]

/-- C4: monotonic onboarding. From any stored step in {gender, location,
age, done} one handler pass either leaves onboardingStep unchanged (in
particular on invalid input, which re-emits the same prompt, and on any
failed external call) or advances it exactly one step along
gender, location, age, done; it never moves backward, and done is terminal:
no pass started at done ever changes the step. -/
theorem onboarding_monotonic (d : UserDoc) (inp : PostInput) (ts1 ts2 : Int) (o : Oracles)
    (hstep : d.profile.onboardingStep = str "gender" ∨
      d.profile.onboardingStep = str "location" ∨
      d.profile.onboardingStep = str "age" ∨
      d.profile.onboardingStep = str "done") :
    ∃ d', (POSTmodel (some d) inp ts1 ts2 o).doc = some d' ∧
      (d'.profile.onboardingStep = d.profile.onboardingStep ∨
       (d.profile.onboardingStep = str "gender" ∧
        d'.profile.onboardingStep = str "location") ∨
       (d.profile.onboardingStep = str "location" ∧
        d'.profile.onboardingStep = str "age") ∨
       (d.profile.onboardingStep = str "age" ∧
        d'.profile.onboardingStep = str "done")) ∧
      (d.profile.onboardingStep = str "done" → d'.profile.onboardingStep = str "done") := by
  by_cases hu : inp.userId.isEmpty = true
  · refine ⟨d, ?_, Or.inl rfl, fun h => h⟩
    unfold POSTmodel
    rw [if_pos hu]
  by_cases hsk : ultraSkip inp = true
  · refine ⟨d, ?_, Or.inl rfl, fun h => h⟩
    unfold POSTmodel
    rw [if_neg hu, if_pos hsk]
  by_cases he : o.ensureFails = true
  · refine ⟨d, ?_, Or.inl rfl, fun h => h⟩
    unfold POSTmodel
    rw [if_neg hu, if_neg hsk, if_pos he]
    rfl
  by_cases hui : o.upsertInFails = true
  · refine ⟨d, ?_, Or.inl rfl, fun h => h⟩
    unfold POSTmodel
    rw [if_neg hu, if_neg hsk, if_neg he]
    simp only []
    rw [if_pos hui]
    rfl
  by_cases hr : o.readFails = true
  · refine ⟨⟨d.profile, upsertBody d.messages
      ⟨inp.messageId, .user, inp.text, ts1, inp.provider, .chat⟩⟩, ?_, Or.inl rfl,
      fun h => h⟩
    unfold POSTmodel
    rw [if_neg hu, if_neg hsk, if_neg he]
    simp only []
    rw [if_neg hui, if_pos hr]
    rfl
  rw [POSTmodel_run d inp ts1 ts2 o (by simpa using hu) (by simpa using hsk)
    (by simpa using he) (by simpa using hui) (by simpa using hr)]
  have hne : d.profile.onboardingStep.isEmpty = false := by
    rcases hstep with h | h | h | h <;> rw [h] <;> rfl
  simp only [hne, Bool.false_eq_true, if_false]
  rcases hstep with h | h | h | h
  · rw [h, if_pos (by decide)]
    rcases hg : normalizeGender inp.text with _ | g
    · rw [onboardingBranch_gender_invalid _ _ _ _ hg]
      obtain ⟨d', hd', hp⟩ := finishOnboarding_doc _ inp ts2 o Q1
      exact ⟨d', hd', Or.inl (by rw [hp]; exact h), fun hdone => absurd hdone (by decide)⟩
    · by_cases hup : o.updateProfileFails = true
      · rw [onboardingBranch_gender_valid_upfail _ _ _ _ _ hg hup]
        exact ⟨_, rfl, Or.inl h, fun hdone => absurd hdone (by decide)⟩
      · rw [onboardingBranch_gender_valid _ _ _ _ _ hg (by simpa using hup)]
        obtain ⟨d', hd', hp⟩ := finishOnboarding_doc _ inp ts2 o Q2
        exact ⟨d', hd', Or.inr (Or.inl ⟨rfl, by rw [hp]⟩),
          fun hdone => absurd hdone (by decide)⟩
  · rw [h, if_pos (by decide)]
    rcases hl : normalizeLocation inp.text with _ | loc
    · rw [onboardingBranch_location_invalid _ _ _ _ hl]
      obtain ⟨d', hd', hp⟩ := finishOnboarding_doc _ inp ts2 o Q2
      exact ⟨d', hd', Or.inl (by rw [hp]; exact h), fun hdone => absurd hdone (by decide)⟩
    · by_cases hup : o.updateProfileFails = true
      · rw [onboardingBranch_location_valid_upfail _ _ _ _ _ hl hup]
        exact ⟨_, rfl, Or.inl h, fun hdone => absurd hdone (by decide)⟩
      · rw [onboardingBranch_location_valid _ _ _ _ _ hl (by simpa using hup)]
        obtain ⟨d', hd', hp⟩ := finishOnboarding_doc _ inp ts2 o Q3
        exact ⟨d', hd', Or.inr (Or.inr (Or.inl ⟨rfl, by rw [hp]⟩)),
          fun hdone => absurd hdone (by decide)⟩
  · rw [h, if_pos (by decide)]
    rcases ha : parseAge inp.text with _ | a
    · rw [onboardingBranch_age_invalid _ _ _ _ ha]
      obtain ⟨d', hd', hp⟩ := finishOnboarding_doc _ inp ts2 o Q3
      exact ⟨d', hd', Or.inl (by rw [hp]; exact h), fun hdone => absurd hdone (by decide)⟩
    · by_cases hup : o.updateProfileFails = true
      · rw [onboardingBranch_age_valid_upfail _ _ _ _ _ ha hup]
        exact ⟨_, rfl, Or.inl h, fun hdone => absurd hdone (by decide)⟩
      · rw [onboardingBranch_age_valid _ _ _ _ _ ha (by simpa using hup)]
        obtain ⟨d', hd', hp⟩ := finishOnboarding_doc _ inp ts2 o WELCOME
        exact ⟨d', hd', Or.inr (Or.inr (Or.inr ⟨rfl, by rw [hp]⟩)),
          fun hdone => absurd hdone (by decide)⟩
  · rw [h, if_neg (by simp)]
    obtain ⟨d', hd', hp⟩ := chatBranch_doc _ inp ts2 o _
    exact ⟨d', hd', Or.inl (by rw [hp]; exact h), fun _ => by rw [hp]; exact h⟩

/-- Witness for C4: a user parked at the gender step answers 1 over
UltraMsg with every external call succeeding. -/
theorem onboarding_monotonic_witness :
    ∃ d', (POSTmodel (some genderDoc) (mkUltraInp "1" "m1") 1 2 oraclesOk).doc = some d' ∧
      (d'.profile.onboardingStep = genderDoc.profile.onboardingStep ∨
       (genderDoc.profile.onboardingStep = str "gender" ∧
        d'.profile.onboardingStep = str "location") ∨
       (genderDoc.profile.onboardingStep = str "location" ∧
        d'.profile.onboardingStep = str "age") ∨
       (genderDoc.profile.onboardingStep = str "age" ∧
        d'.profile.onboardingStep = str "done")) ∧
      (genderDoc.profile.onboardingStep = str "done" →
        d'.profile.onboardingStep = str "done") :=
  onboarding_monotonic genderDoc (mkUltraInp "1" "m1") 1 2 oraclesOk (Or.inl rfl)

lemma respondAndSend_ultramsg_ok (inp : PostInput) (reply : Str) (doc : Option UserDoc)
    (calls : List (List ChatMessage)) (hp : inp.provider = Provider.ultramsg)
    (ht : inp.toRaw.isEmpty = false) :
    respondAndSend inp reply doc calls false = ⟨doc, [⟨inp.toRaw, reply⟩], calls, jsonOkResp⟩ := by
  unfold respondAndSend
  simp only [hp]
  rw [if_neg (by simp [ht]), if_neg (by simp)]

/-- C9: age validation. For a user at step age over UltraMsg with working
collaborators, the pass advances to done and patches the age field exactly
when the numeral-normalized input parses (JS parseInt) to an integer n with
8 ≤ n ≤ 80, and then the welcome text is sent; for any other input the
profile is unchanged and the fixed age prompt Q3 is re-sent. -/
theorem age_validation (d : UserDoc) (inp : PostInput) (ts1 ts2 : Int) (o : Oracles)
    (hstep : d.profile.onboardingStep = str "age")
    (hu : inp.userId.isEmpty = false) (hsk : ultraSkip inp = false)
    (h1 : o.ensureFails = false) (h2 : o.upsertInFails = false) (h3 : o.readFails = false)
    (h4 : o.updateProfileFails = false) (h5 : o.upsertOutFails = false)
    (h6 : o.sendFails = false)
    (hp : inp.provider = Provider.ultramsg) (ht : inp.toRaw.isEmpty = false) :
    (∀ n : Int, jsParseInt (trim (toLatinDigits inp.text)) = some n → 8 ≤ n → n ≤ 80 →
      ∃ d', (POSTmodel (some d) inp ts1 ts2 o).doc = some d' ∧
        d'.profile = { d.profile with age := some n, onboardingStep := str "done" } ∧
        (POSTmodel (some d) inp ts1 ts2 o).sent = [⟨inp.toRaw, WELCOME⟩]) ∧
    ((∀ n : Int, jsParseInt (trim (toLatinDigits inp.text)) = some n → n < 8 ∨ 80 < n) →
      ∃ d', (POSTmodel (some d) inp ts1 ts2 o).doc = some d' ∧
        d'.profile = d.profile ∧
        (POSTmodel (some d) inp ts1 ts2 o).sent = [⟨inp.toRaw, Q3⟩]) := by
  have hrun : POSTmodel (some d) inp ts1 ts2 o =
      onboardingBranch
        ⟨d.profile, upsertBody d.messages
          ⟨inp.messageId, .user, inp.text, ts1, inp.provider, .chat⟩⟩
        inp ts2 o (str "age") := by
    rw [POSTmodel_run d inp ts1 ts2 o hu hsk h1 h2 h3,
      show (if d.profile.onboardingStep.isEmpty then str "gender"
            else d.profile.onboardingStep) = str "age" from by rw [hstep]; decide,
      if_pos (by decide)]
  rw [hrun]
  constructor
  · intro n hn h8 h80
    have hpa : parseAge inp.text = some n := by
      unfold parseAge
      simp only []
      rw [hn]
      simp only []
      rw [if_neg (by simp; omega)]
    rw [onboardingBranch_age_valid _ _ _ _ n hpa h4, finishOnboarding_ok _ _ _ _ _ h5,
      h6, respondAndSend_ultramsg_ok _ _ _ _ hp ht]
    exact ⟨_, rfl, rfl, rfl⟩
  · intro hout
    have hpa : parseAge inp.text = none := by
      unfold parseAge
      simp only []
      cases hpi : jsParseInt (trim (toLatinDigits inp.text)) with
      | none => rfl
      | some n =>
          simp only []
          rcases hout n hpi with hlt | hgt
          · rw [if_pos (by simp; omega)]
          · rw [if_pos (by simp; omega)]
    rw [onboardingBranch_age_invalid _ _ _ _ hpa, finishOnboarding_ok _ _ _ _ _ h5,
      h6, respondAndSend_ultramsg_ok _ _ _ _ hp ht]
    exact ⟨_, rfl, rfl, rfl⟩

/-- Witness for C9: the answer 20 at the age step patches age to 20,
advances to done and sends the welcome text. -/
theorem age_validation_witness :
    ∃ d', (POSTmodel (some ageDoc) (mkUltraInp "20" "m1") 1 2 oraclesOk).doc = some d' ∧
      d'.profile = { ageDoc.profile with age := some 20, onboardingStep := str "done" } ∧
      (POSTmodel (some ageDoc) (mkUltraInp "20" "m1") 1 2 oraclesOk).sent =
        [⟨(mkUltraInp "20" "m1").toRaw, WELCOME⟩] := by
  have h := age_validation ageDoc (mkUltraInp "20" "m1") 1 2 oraclesOk rfl (by decide)
    (by decide) rfl rfl rfl rfl rfl rfl rfl (by decide)
  exact h.1 20 (by decide) (by decide) (by decide)

lemma respondAndSend_llmCalls (inp : PostInput) (reply : Str) (doc : Option UserDoc)
    (calls : List (List ChatMessage)) (sf : Bool) :
    (respondAndSend inp reply doc calls sf).llmCalls = calls := by
  unfold respondAndSend
  split <;> (try split_ifs) <;> rfl

lemma finishChat_llmCalls (d : UserDoc) (inp : PostInput) (ts2 : Int) (o : Oracles)
    (calls : List (List ChatMessage)) (reply : Str) :
    (finishChat d inp ts2 o calls reply).llmCalls = calls := by
  unfold finishChat
  split_ifs
  · rfl
  · rw [respondAndSend_llmCalls]

/-- Evaluation helper: when the chat-kind entries are few and already
sorted, the window is just their projection. -/
lemma buildHistoryForLLM_of_sorted (all : List StoredMessage)
    (hs : List.Pairwise (fun a b => leTs a b = true)
      (all.filter (fun m => m.kind = MessageKind.chat && !(trim m.text).isEmpty)))
    (hlen : (all.filter
      (fun m => m.kind = MessageKind.chat && !(trim m.text).isEmpty)).length ≤
        HISTORY_LIMIT) :
    buildHistoryForLLM all =
      (all.filter (fun m => m.kind = MessageKind.chat && !(trim m.text).isEmpty)).map
        (fun m => ⟨m.role.toChatRole, m.text⟩) := by
  unfold buildHistoryForLLM chatWindow
  simp only []
  rw [List.mergeSort_of_sorted hs, Nat.sub_eq_zero_of_le hlen, List.drop_zero]

/-- Like POSTmodel_run but for a first contact: the document is created at
the gender step and the pass runs the onboarding branch. -/
lemma POSTmodel_run_none (inp : PostInput) (ts1 ts2 : Int) (o : Oracles)
    (hu : inp.userId.isEmpty = false) (hsk : ultraSkip inp = false)
    (h1 : o.ensureFails = false) (h2 : o.upsertInFails = false)
    (h3 : o.readFails = false) :
    POSTmodel none inp ts1 ts2 o =
      onboardingBranch
        ⟨freshProfile inp.userId, upsertBody []
          ⟨inp.messageId, .user, inp.text, ts1, inp.provider, .chat⟩⟩
        inp ts2 o (str "gender") := by
  unfold POSTmodel
  rw [if_neg (by simp [hu]), if_neg (by simp [hsk])]
  simp only [h1, h2, h3, Bool.false_eq_true, if_false]
  rfl

/-- C10 (amended): a JSON (UltraMsg) delivery whose data.type is present,
non-empty and differs from chat is acknowledged with the 200 JSON body and
nothing else happens: the document is untouched, no message is upserted, no
completion call is made, and no outbound message is sent. -/
theorem ultramsg_non_chat_event_untouched (doc0 : Option UserDoc) (inp : PostInput)
    (ts1 ts2 : Int) (o : Oracles) (t : Str)
    (hp : inp.provider = Provider.ultramsg) (ht : inp.ultraType = some t)
    (hne : t ≠ []) (hchat : t ≠ str "chat") :
    POSTmodel doc0 inp ts1 ts2 o = ⟨doc0, [], [], jsonOkResp⟩ := by
  by_cases hu : inp.userId.isEmpty = true
  · unfold POSTmodel
    rw [if_pos hu]
  · have hsk : ultraSkip inp = true := by
      unfold ultraSkip
      rw [hp, ht]
      simp [hne, hchat, List.isEmpty_iff]
    unfold POSTmodel
    rw [if_neg hu, if_pos hsk]

/-- Witness for C10: an UltraMsg image event (data.type image) against an
onboarded user leaves everything untouched. -/
theorem ultramsg_non_chat_event_untouched_witness :
    POSTmodel (some doneDoc)
      ⟨Provider.ultramsg, str "96170123456", str "96170123456@c.us", str "x",
       str "m9", some (str "image")⟩ 1 2 oraclesOk =
      ⟨some doneDoc, [], [], jsonOkResp⟩ :=
  ultramsg_non_chat_event_untouched (some doneDoc) _ 1 2 oraclesOk (str "image")
    rfl rfl (by decide) (by decide)

/-- Counterexample to C10 as stated: a JSON delivery whose data.type is
present but equal to the empty string is present and differs from chat, yet
the guard (ultraType && ultraType !== "chat") treats the empty string as
falsy, so the handler proceeds: it creates the conversation document,
upserts messages and sends an outbound reply. -/
theorem ultramsg_empty_type_processed :
    (POSTmodel none
      ⟨Provider.ultramsg, str "96170123456", str "96170123456@c.us", str "hi",
       str "m1", some []⟩ 1 2 oraclesOk).doc ≠ none ∧
    (POSTmodel none
      ⟨Provider.ultramsg, str "96170123456", str "96170123456@c.us", str "hi",
       str "m1", some []⟩ 1 2 oraclesOk).sent ≠ [] := by
  rw [POSTmodel_run_none _ 1 2 _ (by decide) (by decide) rfl rfl rfl,
    onboardingBranch_gender_invalid _ _ _ _ (by decide),
    finishOnboarding_ok _ _ _ _ _ rfl,
    show oraclesOk.sendFails = false from rfl,
    respondAndSend_ultramsg_ok _ _ _ _ rfl (by decide)]
  exact ⟨by simp, by simp⟩

/-- C3 (amended): after onboarding is done the short-circuit that exists in
the code is the off-topic guard, not a greeting check. A message matching
the fixed bilingual off-topic keyword list (case-insensitive substring)
never reaches the text-generation collaborator and is answered with the
canned refusal; every other message - greetings such as hello included -
produces exactly one collaborator call. -/
theorem offtopic_short_circuit (d : UserDoc) (inp : PostInput) (ts1 ts2 : Int)
    (o : Oracles) (hstep : d.profile.onboardingStep = str "done")
    (hu : inp.userId.isEmpty = false) (hsk : ultraSkip inp = false)
    (h1 : o.ensureFails = false) (h2 : o.upsertInFails = false)
    (h3 : o.readFails = false) :
    (isClearlyOffTopic inp.text = true →
      (POSTmodel (some d) inp ts1 ts2 o).llmCalls = []) ∧
    (isClearlyOffTopic inp.text = false →
      (POSTmodel (some d) inp ts1 ts2 o).llmCalls.length = 1) := by
  have hrun : POSTmodel (some d) inp ts1 ts2 o =
      chatBranch
        ⟨d.profile, upsertBody d.messages
          ⟨inp.messageId, .user, inp.text, ts1, inp.provider, .chat⟩⟩
        inp ts2 o
        (upsertBody d.messages
          ⟨inp.messageId, .user, inp.text, ts1, inp.provider, .chat⟩) := by
    rw [POSTmodel_run d inp ts1 ts2 o hu hsk h1 h2 h3,
      show (if d.profile.onboardingStep.isEmpty then str "gender"
            else d.profile.onboardingStep) = str "done" from by rw [hstep]; decide,
      if_neg (by simp)]
  rw [hrun]
  constructor
  · intro hot
    rw [chatBranch_offtopic _ _ _ _ _ hot, finishChat_llmCalls]
  · intro hot
    by_cases hllm : o.llmFails = true
    · rw [chatBranch_llm_fails _ _ _ _ _ hot hllm]
      rfl
    · rw [chatBranch_ontopic _ _ _ _ _ hot (by simpa using hllm), finishChat_llmCalls]
      rfl

/-- Witness for C3: the off-topic message - my cat is sick - from an
onboarded user produces no collaborator call, while the greeting hello
produces exactly one. -/
theorem offtopic_short_circuit_witness :
    (POSTmodel (some doneDoc) (mkUltraInp "my cat is sick" "m1") 1 2 oraclesOk).llmCalls =
      [] := by
  have h := offtopic_short_circuit doneDoc (mkUltraInp "my cat is sick" "m1") 1 2
    oraclesOk rfl (by decide) (by decide) rfl rfl rfl
  exact h.1 (by decide)

/-- Counterexample to C3 as stated: no greeting short-circuit exists in the
code. The canonical greeting hello, sent by a user whose onboardingStep is
done, is not in the off-topic list and therefore does reach the
text-generation collaborator (exactly one completion call is recorded),
although the claim says a greeting never reaches it. -/
theorem greeting_reaches_llm :
    (POSTmodel (some doneDoc) (mkUltraInp "hello" "m1") 1 2 oraclesOk).llmCalls.length =
      1 := by
  rw [POSTmodel_run doneDoc _ 1 2 _ (by decide) (by decide) rfl rfl rfl,
    show (if doneDoc.profile.onboardingStep.isEmpty then str "gender"
          else doneDoc.profile.onboardingStep) = str "done" from by decide,
    if_neg (by simp),
    chatBranch_ontopic _ _ _ _ _ (by decide) rfl, finishChat_llmCalls]
  rfl

lemma mem_chatWindow {all : List StoredMessage} {m : StoredMessage}
    (h : m ∈ chatWindow all) :
    m ∈ all ∧ m.kind = MessageKind.chat ∧ (trim m.text).isEmpty = false := by
  unfold chatWindow at h
  simp only [] at h
  have hm : m ∈ all.filter
      (fun m => m.kind = MessageKind.chat && !(trim m.text).isEmpty) :=
    List.mem_mergeSort.mp (List.drop_subset _ _ h)
  obtain ⟨hin, hcond⟩ := List.mem_filter.mp hm
  simp only [Bool.and_eq_true, decide_eq_true_eq, Bool.not_eq_true'] at hcond
  exact ⟨hin, hcond.1, hcond.2⟩

/-- C2 (amended): the window passed to the text-generation collaborator is
built exclusively from stored entries of kind chat; entries of kind
onboarding - in particular the scripted onboarding prompts, which the
handler stores with kind onboarding - never appear. (The user's inbound
onboarding answers, however, are stored with kind chat by design and can
appear: see the counterexample to the original claim.) -/
theorem context_window_only_chat_kind (all : List StoredMessage) (c : ChatMessage)
    (hc : c ∈ buildHistoryForLLM all) :
    ∃ m, m ∈ all ∧ m.kind = MessageKind.chat ∧
      c = ⟨m.role.toChatRole, m.text⟩ := by
  unfold buildHistoryForLLM at hc
  obtain ⟨m, hm, hceq⟩ := List.mem_map.mp hc
  obtain ⟨hin, hkind, _⟩ := mem_chatWindow hm
  exact ⟨m, hin, hkind, hceq.symm⟩

/-- Witness for C2: a one-entry transcript whose single chat message is
exactly what the window carries. -/
theorem context_window_only_chat_kind_witness :
    ∃ m, m ∈ [oneChatMsg] ∧ m.kind = MessageKind.chat ∧
      (⟨ChatRole.user, str "hi"⟩ : ChatMessage) = ⟨m.role.toChatRole, m.text⟩ := by
  have heval : buildHistoryForLLM [oneChatMsg] =
      [⟨ChatRole.user, str "hi"⟩] := by
    rw [buildHistoryForLLM_of_sorted _ (by decide) (by decide)]
    decide
  exact context_window_only_chat_kind [oneChatMsg] ⟨ChatRole.user, str "hi"⟩
    (by rw [heval]; exact List.mem_singleton.mpr rfl)

/-- Counterexample to C2 as stated: the handler stores every inbound user
message with kind chat, onboarding phase included (route.ts line 475, and
the comment above it), so an onboarding answer does appear later in the
collaborator window. Concretely: a user parked at the age step answers 20
(an onboarding answer recorded while onboardingStep was age); after
onboarding completes, their next message - hello - triggers a completion
call whose window contains the entry user/20. -/
theorem onboarding_answer_reaches_llm_window :
    ageDoc.profile.onboardingStep = str "age" ∧
    (⟨ChatRole.user, str "20"⟩ : ChatMessage) ∈
      (POSTmodel (POSTmodel (some ageDoc) (mkUltraInp "20" "m1") 1 2 oraclesOk).doc
        (mkUltraInp "hello" "m2") 3 4 oraclesOk).llmCalls.headD [] := by
  refine ⟨rfl, ?_⟩
  have e1 : (POSTmodel (some ageDoc) (mkUltraInp "20" "m1") 1 2 oraclesOk).doc =
      some ageDocAfter := by
    rw [POSTmodel_run ageDoc _ 1 2 _ (by decide) (by decide) rfl rfl rfl,
      show (if ageDoc.profile.onboardingStep.isEmpty then str "gender"
            else ageDoc.profile.onboardingStep) = str "age" from by decide,
      if_pos (by decide),
      onboardingBranch_age_valid _ _ _ _ 20 (by decide) rfl,
      finishOnboarding_ok _ _ _ _ _ rfl,
      show oraclesOk.sendFails = false from rfl,
      respondAndSend_ultramsg_ok _ _ _ _ rfl (by decide),
      upsertBody_append_of_sorted _ _ (by decide) (by decide) (by decide),
      upsertBody_append_of_sorted _ _ (by decide) (by decide) (by decide)]
    rfl
  rw [e1,
    POSTmodel_run ageDocAfter _ 3 4 _ (by decide) (by decide) rfl rfl rfl,
    show (if ageDocAfter.profile.onboardingStep.isEmpty then str "gender"
          else ageDocAfter.profile.onboardingStep) = str "done" from by decide,
    if_neg (by simp),
    chatBranch_ontopic _ _ _ _ _ (by decide) rfl,
    finishChat_llmCalls,
    upsertBody_append_of_sorted _ _ (by decide) (by decide) (by decide),
    buildHistoryForLLM_of_sorted _ (by decide) (by decide)]
  decide
